import Mathlib

/-!
PostgreSQL MCP server: the two tool handlers of `main.go`.

A shallow embedding of `handleQuery` and `handleSchemaInfo`.

* A Go `string` is an immutable byte sequence (`GoString`); source literals are
  the UTF-8 encoding of their text (`lit`).
* A Go `interface{}` holding a driver value or a decoded JSON argument is a `Value`.
* A Go `map[string]T` is an association list with unique keys (`GoMap`), kept in
  order of first insertion; the order `range` visits it in is not fixed by Go and
  is supplied by the environment (`Env.rangeOrder`).
* The database is an oracle `DB`: `QueryContext` either fails with an error text
  or yields a cursor `Rows`, which lists the outcome of every `Next`/`Scan` pair.
* A handler returns its outcome together with the list of SQL statements it
  submitted to the database, in order.
* Library behaviour that the handlers only pass data through (`fmt.Sprintf("%v", _)`,
  the non-ASCII path of `strings.ToLower`) is a field of `Env`.
-/

namespace PgMcp

/-! ## Go values -/

/-- A Go `string`: a sequence of bytes. -/
abbrev GoString := List UInt8

/-- A Go string literal: the UTF-8 encoding of the text. -/
def lit (s : String) : GoString := s.data.flatMap String.utf8EncodeChar

/-- A Go `float64`, as its IEEE-754 bit pattern. -/
structure Float64 where
  bits : Nat
  deriving DecidableEq, Repr

/-- The dynamic value inside a Go `interface{}`: what the driver hands to `Scan`
(`nil`, `int64`, `float64`, `bool`, `[]byte`, `string`, or another type such as
`time.Time`), and what a decoded JSON argument holds. -/
inductive Value where
  | null
  | int64 (n : Int)
  | float64 (x : Float64)
  | bool (b : Bool)
  | bytes (b : List UInt8)
  | str (s : GoString)
  | other (id : Nat)
  deriving DecidableEq, Repr

/-- A Go `map[string]T`. -/
abbrev GoMap (α : Type) := List (GoString × α)

/-- The lookup `m[k]` with the comma-ok result. -/
def mapGet {α : Type} : GoMap α → GoString → Option α
  | [], _ => none
  | (k', v) :: m, k => if k' = k then some v else mapGet m k

/-- The assignment `m[k] = v`. -/
def mapSet {α : Type} : GoMap α → GoString → α → GoMap α
  | [], k, v => [(k, v)]
  | (k', v') :: m, k, v => if k' = k then (k, v) :: m else (k', v') :: mapSet m k v

/-- The result of `Sprintf` with a single `%s` or `%v` verb applied to a string
or an error: the text before the verb, the argument, the text after it. -/
def Sprintf1 (before arg after : GoString) : GoString := before ++ arg ++ after

/-! ## `strings.Contains` and `strings.ToLower` -/

/-- Go `strings.HasPrefix`. -/
def HasPrefix : GoString → GoString → Bool
  | _, [] => true
  | [], _ :: _ => false
  | c :: s, d :: p => c == d && HasPrefix s p

/-- Go `strings.Contains`: `substr` occurs in `s` at some byte offset. -/
def Contains : GoString → GoString → Bool
  | [], substr => HasPrefix [] substr
  | c :: s, substr => HasPrefix (c :: s) substr || Contains s substr

/-- The ASCII branch of `strings.ToLower` on one byte: `A`..`Z` gain `a - A`. -/
def lowerByte (c : UInt8) : UInt8 := if 65 ≤ c ∧ c ≤ 90 then c + 32 else c

/-- The four value kinds a JSON serialiser renders without help: null, number,
boolean, string. -/
def Value.isNormalized : Value → Bool
  | .null => true
  | .int64 _ => true
  | .float64 _ => true
  | .bool _ => true
  | .str _ => true
  | .bytes _ => false
  | .other _ => false

/-! ## Tool results, envelopes, database -/

/-- An `*mcp.CallToolResult`: `NewToolResultError` or `NewToolResultText`. -/
inductive CallToolResult where
  | error (msg : GoString)
  | text (msg : GoString)
  deriving DecidableEq, Repr

/-- How a handler call ends: it returns a result, or a run-time panic unwinds it
(an index out of range on `colTypes[i]`). -/
inductive Outcome where
  | returned (r : CallToolResult)
  | panicked
  deriving DecidableEq, Repr

/-- The values of the `jsonData` map of `handleQuery`: a `string`, a `[]string`,
a `[]map[string]interface{}` or an `int`. -/
inductive QueryVal where
  | message (s : GoString)
  | columns (cs : List GoString)
  | rows (rs : List (GoMap Value))
  | count (n : Int)
  deriving DecidableEq, Repr

/-- The values of a table map of `handleSchemaInfo`: the `string` table name or
the `[]map[string]interface{}` of column-info maps. -/
inductive TableVal where
  | name (s : GoString)
  | columns (cs : List (GoMap Value))
  deriving DecidableEq, Repr

/-- An open `*sql.Rows` cursor, seen through the calls the handlers make on it.
`ρ` is what one successful `Scan` into the handler's destinations yields. -/
structure Rows (ρ : Type) where
  /-- Result of `rows.Columns()`. -/
  columns : Except GoString (List GoString)
  /-- `DatabaseTypeName()` of each entry of `rows.ColumnTypes()`; empty when that
  call fails, since the handler discards its error. -/
  columnTypes : List GoString
  /-- One entry per `rows.Next()` that returns true: the result of the `Scan`. -/
  scans : List (Except GoString ρ)
  /-- Result of `rows.Err()` once `Next` has returned false. -/
  err : Option GoString

/-- The global `DB`: `DB.QueryContext(ctx, query)` as a function of the statement
text, returning the error text or the cursor. -/
abbrev DB (ρ : Type) := GoString → Except GoString (Rows ρ)

/-- A Go `sql.NullString`. -/
structure NullString where
  String : GoString
  Valid : Bool
  deriving DecidableEq, Repr

/-- The six destinations of the `Scan` in `handleSchemaInfo`. -/
structure SchemaRow where
  tableName : NullString
  columnName : NullString
  dataType : NullString
  isNullable : NullString
  columnDefault : NullString
  constraintType : NullString
  deriving DecidableEq, Repr

/-- Library behaviour the handlers depend on but do not define. -/
structure Env where
  /-- The value of `strings.Map(unicode.ToLower, s)`, the path `strings.ToLower`
  takes for a string with a byte `≥ 0x80`. -/
  mapToLower : GoString → GoString
  /-- The value of `fmt.Sprintf("%v", jsonData)` in `handleQuery`. -/
  sprintQuery : GoMap QueryVal → GoString
  /-- The value of `fmt.Sprintf("%v", jsonData)` in `handleSchemaInfo`. -/
  sprintSchema : GoMap (List (GoMap TableVal)) → GoString
  /-- The order in which `range tableMap` visits the entries. -/
  rangeOrder : GoMap (List (GoMap Value)) → GoMap (List (GoMap Value))

/-- Go `strings.ToLower`: an all-ASCII string is returned as is when it has no
upper-case letter and with `A`..`Z` lowered otherwise; any other string is
mapped rune by rune. -/
def ToLower (env : Env) (s : GoString) : GoString :=
  if s.all (fun c => c < 128) then
    if s.any (fun c => 65 ≤ c ∧ c ≤ 90) then s.map lowerByte else s
  else env.mapToLower s

/-! ## `handleQuery` -/

/-- The `switch colTypes[i].DatabaseTypeName()` of `handleQuery` for a non-nil
`val`: the value assigned to `row[col]`. -/
def normalize (typeName : GoString) (val : Value) : Value :=
  if typeName = lit "INT4" ∨ typeName = lit "INT8" then
    match val with
    | .int64 v => .int64 v
    | _ => val
  else if typeName = lit "FLOAT4" ∨ typeName = lit "FLOAT8" then
    match val with
    | .float64 v => .float64 v
    | _ => val
  else
    match val with
    | .bytes b => .str b
    | _ => val

/-- One iteration of `for i, col := range columns`: the row map after the cell is
stored, or `none` when `colTypes[i]` is out of range. -/
def storeCell (colTypes : List GoString) (row : GoMap Value) (i : Nat) (col : GoString)
    (val : Value) : Option (GoMap Value) :=
  if val = .null then some (mapSet row col .null)
  else
    match colTypes[i]? with
    | none => none
    | some t => some (mapSet row col (normalize t val))

/-- The loop `for i, col := range columns` from index `i` on. `values` is the
slice the `Scan` filled; a slot it did not fill is still `nil`. -/
def fillRow (colTypes : List GoString) (values : List Value) :
    Nat → List GoString → GoMap Value → Option (GoMap Value)
  | _, [], row => some row
  | i, col :: rest, row =>
    match storeCell colTypes row i col (values[i]?.getD .null) with
    | none => none
    | some row' => fillRow colTypes values (i + 1) rest row'

/-- The map built for one scanned row: `row := make(map[string]interface{})`
followed by the loop over the columns. -/
def buildRow (columns colTypes : List GoString) (values : List Value) : Option (GoMap Value) :=
  fillRow colTypes values 0 columns []

/-- The loop `for rows.Next()`: the accumulated `result`, or the early exit. -/
def scanRows (columns colTypes : List GoString) :
    List (Except GoString (List Value)) → List (GoMap Value) → Except Outcome (List (GoMap Value))
  | [], result => .ok result
  | .error e :: _, _ =>
    .error (.returned (.error (Sprintf1 (lit "Error scanning row: ") e [])))
  | .ok values :: rest, result =>
    match buildRow columns colTypes values with
    | none => .error .panicked
    | some row => scanRows columns colTypes rest (result ++ [row])

/-- The `jsonData` map of `handleQuery` for the given `columns` and `result`. -/
def queryEnvelope (columns : List GoString) (result : List (GoMap Value)) : GoMap QueryVal :=
  if result.length = 0 then
    [(lit "message", .message (lit "Query executed successfully with no rows returned")),
     (lit "columns", .columns columns)]
  else
    [(lit "columns", .columns columns),
     (lit "rows", .rows result),
     (lit "count", .count result.length)]

/-- The part of `handleQuery` after `DB.QueryContext` succeeded. -/
def processRows (env : Env) (rows : Rows (List Value)) : Outcome :=
  match rows.columns with
  | .error e => .returned (.error (Sprintf1 (lit "Failed to get column names: ") e []))
  | .ok columns =>
    match scanRows columns rows.columnTypes rows.scans [] with
    | .error out => out
    | .ok result =>
      match rows.err with
      | some e => .returned (.error (Sprintf1 (lit "Error iterating rows: ") e []))
      | none => .returned (.text (env.sprintQuery (queryEnvelope columns result)))

/-- The value of the local `unsafe` of `handleQuery`. -/
def unsafeFlag (args : GoMap Value) : Bool :=
  match mapGet args (lit "unsafe") with
  | some (.bool val) => val
  | _ => false

/-- The condition of the safety check on the lower-cased query. -/
def hasUnsafeToken (lowerQuery : GoString) : Bool :=
  Contains lowerQuery (lit "drop ") ||
  Contains lowerQuery (lit "truncate ") ||
  Contains lowerQuery (lit "delete ") ||
  Contains lowerQuery (lit "update ") ||
  Contains lowerQuery (lit "alter ") ||
  Contains lowerQuery (lit "create ") ||
  Contains lowerQuery (lit "insert ")

/-- The handler `handleQuery`: its outcome and the statements it submitted. -/
def handleQuery (env : Env) (db : DB (List Value)) (args : GoMap Value) :
    Outcome × List GoString :=
  match mapGet args (lit "query") with
  | some (.str query) =>
    if !unsafeFlag args && hasUnsafeToken (ToLower env query) then
      (.returned (.error
        (lit "Potentially unsafe query detected. Set 'unsafe' to true to execute.")), [])
    else
      match db query with
      | .error e =>
        (.returned (.error (Sprintf1 (lit "Query execution failed: ") e [])), [query])
      | .ok rows => (processRows env rows, [query])
  | _ => (.returned (.error (lit "Query parameter is required")), [])

/-! ## `handleSchemaInfo` -/

/-- The catalog statement before the optional filter and the ordering. -/
def schemaQueryBase : GoString :=
  lit "\n\t\tSELECT \n\t\t\tt.table_name, \n\t\t\tc.column_name, \n\t\t\tc.data_type, \n\t\t\tc.is_nullable,\n\t\t\tc.column_default,\n\t\t\ttc.constraint_type\n\t\tFROM \n\t\t\tinformation_schema.tables t\n\t\tJOIN \n\t\t\tinformation_schema.columns c ON t.table_name = c.table_name\n\t\tLEFT JOIN \n\t\t\tinformation_schema.key_column_usage kcu ON c.column_name = kcu.column_name AND c.table_name = kcu.table_name\n\t\tLEFT JOIN \n\t\t\tinformation_schema.table_constraints tc ON kcu.constraint_name = tc.constraint_name\n\t\tWHERE \n\t\t\tt.table_schema = 'public'\n\t"

/-- The statement text `handleSchemaInfo` submits for the filter `tableName`. -/
def schemaQuery (tableName : GoString) : GoString :=
  let query := schemaQueryBase
  let query :=
    if tableName ≠ [] then query ++ Sprintf1 (lit " AND t.table_name = '") tableName (lit "'")
    else query
  query ++ lit " ORDER BY t.table_name, c.ordinal_position"

/-- The `columnInfo` map built for one scanned row. -/
def columnInfo (r : SchemaRow) : GoMap Value :=
  let info : GoMap Value :=
    [(lit "column_name", .str r.columnName.String),
     (lit "data_type", .str r.dataType.String),
     (lit "is_nullable", .bool (decide (r.isNullable.String = lit "YES")))]
  let info := if r.columnDefault.Valid then mapSet info (lit "default_value") (.str r.columnDefault.String) else info
  if r.constraintType.Valid then mapSet info (lit "constraint") (.str r.constraintType.String) else info

/-- The statement `tableMap[name] = append(tableMap[name], columnInfo)`. -/
def addColumn (tableMap : GoMap (List (GoMap Value))) (r : SchemaRow) : GoMap (List (GoMap Value)) :=
  mapSet tableMap r.tableName.String ((mapGet tableMap r.tableName.String).getD [] ++ [columnInfo r])

/-- The loop `for rows.Next()` of `handleSchemaInfo`: the final `tableMap`, or the
error result of a failed `Scan`. -/
def scanSchema : List (Except GoString SchemaRow) → GoMap (List (GoMap Value)) →
    Except CallToolResult (GoMap (List (GoMap Value)))
  | [], tableMap => .ok tableMap
  | .error e :: _, _ => .error (.error (Sprintf1 (lit "Error scanning row: ") e []))
  | .ok r :: rest, tableMap => scanSchema rest (addColumn tableMap r)

/-- The loop `for tableName, columns := range tableMap`: one table map per entry,
in the order the entries are visited. -/
def buildTables (visited : GoMap (List (GoMap Value))) : List (GoMap TableVal) :=
  visited.map (fun e => [(lit "table_name", TableVal.name e.1), (lit "columns", TableVal.columns e.2)])

/-- The value of the outer `tableName` of `handleSchemaInfo`. -/
def tableArg (args : GoMap Value) : GoString :=
  match mapGet args (lit "table") with
  | some (.str val) => val
  | _ => []

/-- The part of `handleSchemaInfo` after `DB.QueryContext` succeeded. -/
def processSchema (env : Env) (tableName : GoString) (rows : Rows SchemaRow) : CallToolResult :=
  match scanSchema rows.scans [] with
  | .error res => res
  | .ok tableMap =>
    match rows.err with
    | some e => .error (Sprintf1 (lit "Error iterating rows: ") e [])
    | none =>
      let tables := buildTables (env.rangeOrder tableMap)
      if tables.length = 0 then
        if tableName = [] then .text (lit "No tables found in the database.")
        else .text (Sprintf1 (lit "Table '") tableName (lit "' not found."))
      else .text (env.sprintSchema [(lit "tables", tables)])

/-- The handler `handleSchemaInfo`: its result and the statements it submitted. -/
def handleSchemaInfo (env : Env) (db : DB SchemaRow) (args : GoMap Value) :
    CallToolResult × List GoString :=
  let tableName := tableArg args
  let query := schemaQuery tableName
  match db query with
  | .error e => (.error (Sprintf1 (lit "Failed to get schema information: ") e []), [query])
  | .ok rows => (processSchema env tableName rows, [query])

/-! ## Vocabulary of the statements and sample inputs -/

/-- The seven substrings the safety check looks for. -/
def denylist : List GoString :=
  [lit "drop ", lit "truncate ", lit "delete ", lit "update ", lit "alter ", lit "create ",
   lit "insert "]

/-- The type tags of the integer family and of the floating-point family. -/
def numericTags : List GoString := [lit "INT4", lit "INT8", lit "FLOAT4", lit "FLOAT8"]

/-- Byte-wise lexical order on strings, the order `%v` prints map keys in. -/
def strLe : GoString → GoString → Bool
  | [], _ => true
  | _ :: _, [] => false
  | a :: s, b :: t => a < b || (a == b && strLe s t)

/-- Insertion of an entry into a map listing sorted by key. -/
def insertByKey {α : Type} (e : GoString × α) : GoMap α → GoMap α
  | [] => [e]
  | e' :: m => if strLe e.1 e'.1 then e :: e' :: m else e' :: insertByKey e m

/-- A rendering of a map in the manner of `%v`: `map[k:v k:v]`, keys sorted. -/
def renderMap {α : Type} (f : α → GoString) (m : GoMap α) : GoString :=
  lit "map[" ++
    List.intercalate (lit " ") ((m.foldr insertByKey []).map (fun e => e.1 ++ lit ":" ++ f e.2)) ++
    lit "]"

/-- A rendering of a sequence in the manner of `%v`: `[a b c]`. -/
def renderList {α : Type} (f : α → GoString) (l : List α) : GoString :=
  lit "[" ++ List.intercalate (lit " ") (l.map f) ++ lit "]"

/-- A rendering of a cell value in the manner of `%v`; a float is shown by its
bit pattern and a value of another type by its identifier. -/
def renderValue : Value → GoString
  | .null => lit "<nil>"
  | .int64 n => lit (toString n)
  | .float64 x => lit "float64(" ++ lit (toString x.bits) ++ lit ")"
  | .bool b => if b then lit "true" else lit "false"
  | .bytes b => renderList (fun c => lit (toString c.toNat)) b
  | .str s => s
  | .other id => lit "other(" ++ lit (toString id) ++ lit ")"

/-- A rendering of a value of the query envelope. -/
def renderQueryVal : QueryVal → GoString
  | .message s => s
  | .columns cs => renderList id cs
  | .rows rs => renderList (renderMap renderValue) rs
  | .count n => lit (toString n)

/-- A rendering of a value of a table map. -/
def renderTableVal : TableVal → GoString
  | .name s => s
  | .columns cs => renderList (renderMap renderValue) cs

/-- A stand-in environment: identity on non-ASCII text, envelopes rendered with
their whole content in the manner of `%v`, `range` in reverse insertion order. -/
def sampleEnv : Env where
  mapToLower := id
  sprintQuery := renderMap renderQueryVal
  sprintSchema := renderMap (renderList (renderMap renderTableVal))
  rangeOrder := List.reverse

/-- A database that answers every statement with the one row `(NULL, 2)` under
two columns that are both named `a`. -/
def sameNameDB : DB (List Value) := fun _ =>
  .ok { columns := .ok [lit "a", lit "a"], columnTypes := [lit "INT4", lit "INT4"],
        scans := [.ok [.null, .int64 2]], err := none }

/-- A database that answers `SELECT 1 AS x` with one row and every other
statement with an empty result over the single column `id`. -/
def sampleDB : DB (List Value) := fun query =>
  if query = lit "SELECT 1 AS x" then
    .ok { columns := .ok [lit "x"], columnTypes := [lit "INT4"], scans := [.ok [.int64 1]],
          err := none }
  else
    .ok { columns := .ok [lit "id"], columnTypes := [lit "INT4"], scans := [], err := none }

/-- The query of the false-positive scenario. -/
def commentQuery : GoString := lit "SELECT * FROM t WHERE 1=1 -- DELETE me"

/-- A catalog in which the statement matches no row. -/
def emptyCatalog : DB SchemaRow := fun _ =>
  .ok { columns := .ok [], columnTypes := [], scans := [], err := none }

/-- Three catalog rows: two columns of `users` with a column of `orders` between. -/
def sampleSchemaRows : List SchemaRow :=
  [{ tableName := ⟨lit "users", true⟩, columnName := ⟨lit "id", true⟩,
     dataType := ⟨lit "integer", true⟩, isNullable := ⟨lit "NO", true⟩,
     columnDefault := ⟨lit "nextval('users_id_seq'::regclass)", true⟩,
     constraintType := ⟨lit "PRIMARY KEY", true⟩ },
   { tableName := ⟨lit "orders", true⟩, columnName := ⟨lit "id", true⟩,
     dataType := ⟨lit "integer", true⟩, isNullable := ⟨lit "NO", true⟩,
     columnDefault := ⟨[], false⟩, constraintType := ⟨lit "PRIMARY KEY", true⟩ },
   { tableName := ⟨lit "users", true⟩, columnName := ⟨lit "name", true⟩,
     dataType := ⟨lit "text", true⟩, isNullable := ⟨lit "YES", true⟩,
     columnDefault := ⟨[], false⟩, constraintType := ⟨[], false⟩ }]

/-- A catalog in which every statement yields `sampleSchemaRows`. -/
def sampleCatalog : DB SchemaRow := fun _ =>
  .ok { columns := .ok [], columnTypes := [], scans := sampleSchemaRows.map .ok, err := none }

/-- The map `m` is the row map of the scanned `values` under the column names
`C` and type names `T`: its keys are distinct, they are names of `C`, and every
name of `C` is bound to the normalized cell of the last column carrying it (nil
for a nil cell, else what the type switch assigns). -/
def IsRowMap (C T : List GoString) (values : List Value) (m : GoMap Value) : Prop :=
  (m.map Prod.fst).Nodup ∧
  (∀ c, c ∉ C → mapGet m c = none) ∧
  ∀ (pre post : List GoString) (c t : GoString), C = pre ++ c :: post → c ∉ post →
    T[pre.length]? = some t →
    mapGet m c =
      some (if values[pre.length]?.getD .null = .null then .null
            else normalize t (values[pre.length]?.getD .null))

/-- The table name a scanned row is filed under. -/
def rowTable (r : SchemaRow) : GoString := r.tableName.String

/-- The column-info maps of the rows of `R` filed under table `t`, in row order. -/
def columnsOf (R : List SchemaRow) (t : GoString) : List (GoMap Value) :=
  (R.filter (fun r => decide (rowTable r = t))).map columnInfo

/-- The table map for table `t` over the rows `R`. -/
def tableOf (R : List SchemaRow) (t : GoString) : GoMap TableVal :=
  [(lit "table_name", .name t), (lit "columns", .columns (columnsOf R t))]

/-- The number of column-info records in a table map. -/
def columnCount (table : GoMap TableVal) : Nat :=
  match mapGet table (lit "columns") with
  | some (.columns cs) => cs.length
  | _ => 0

/-! ## Lemmas on maps and strings -/

theorem mapGet_mapSet_self {α : Type} (m : GoMap α) (k : GoString) (v : α) :
    mapGet (mapSet m k v) k = some v := by
  induction m with
  | nil => simp [mapSet, mapGet]
  | cons e m ih =>
    obtain ⟨k', v'⟩ := e
    by_cases h : k' = k
    · simp [mapSet, mapGet, h]
    · simp [mapSet, mapGet, h, ih]

theorem mapGet_mapSet_ne {α : Type} (m : GoMap α) (k k' : GoString) (v : α) (hk : k ≠ k') :
    mapGet (mapSet m k v) k' = mapGet m k' := by
  induction m with
  | nil => simp [mapSet, mapGet, hk]
  | cons e m ih =>
    obtain ⟨k₀, v₀⟩ := e
    by_cases h : k₀ = k
    · subst h
      simp [mapSet, mapGet, hk]
    · by_cases h' : k₀ = k'
      · subst h'
        simp [mapSet, mapGet, h]
      · simp [mapSet, mapGet, h, h', ih]

theorem mapGet_mapSet {α : Type} (m : GoMap α) (k k' : GoString) (v : α) :
    mapGet (mapSet m k v) k' = if k = k' then some v else mapGet m k' := by
  by_cases h : k = k'
  · rw [if_pos h, ← h, mapGet_mapSet_self]
  · rw [if_neg h, mapGet_mapSet_ne _ _ _ _ h]

theorem mapGet_eq_none_iff {α : Type} (m : GoMap α) (k : GoString) :
    mapGet m k = none ↔ k ∉ m.map Prod.fst := by
  induction m with
  | nil => simp [mapGet]
  | cons e m ih =>
    obtain ⟨k', v'⟩ := e
    by_cases h : k' = k
    · simp [mapGet, h]
    · simp [mapGet, h, ih, Ne.symm h]

theorem keys_mapSet {α : Type} (m : GoMap α) (k : GoString) (v : α) :
    (mapSet m k v).map Prod.fst =
      if k ∈ m.map Prod.fst then m.map Prod.fst else m.map Prod.fst ++ [k] := by
  induction m with
  | nil => simp [mapSet]
  | cons e m ih =>
    obtain ⟨k', v'⟩ := e
    by_cases h : k' = k
    · simp [mapSet, h]
    · by_cases hm : k ∈ m.map Prod.fst
      · simp only [mapSet, h, if_false, List.map_cons, ih, hm, if_true, List.mem_cons, or_true]
      · simp only [mapSet, h, if_false, List.map_cons, ih, hm, List.mem_cons, Ne.symm h,
          or_self, List.cons_append]

theorem mapGet_of_mem {α : Type} (m : GoMap α) (hnd : (m.map Prod.fst).Nodup) (e : GoString × α)
    (he : e ∈ m) : mapGet m e.1 = some e.2 := by
  induction m with
  | nil => simp at he
  | cons e' m ih =>
    obtain ⟨k', v'⟩ := e'
    simp only [List.map_cons, List.nodup_cons] at hnd
    rcases List.mem_cons.mp he with h | h
    · subst h
      simp [mapGet]
    · have hne : k' ≠ e.1 := by
        intro hk
        exact hnd.1 (hk ▸ List.mem_map_of_mem Prod.fst h)
      simp only [mapGet, hne, if_false]
      exact ih hnd.2 h

theorem HasPrefix_iff (s p : GoString) : HasPrefix s p = true ↔ p <+: s := by
  induction s generalizing p with
  | nil => cases p <;> simp [HasPrefix]
  | cons c s ih =>
    cases p with
    | nil => simp [HasPrefix]
    | cons d p =>
      simp only [HasPrefix, Bool.and_eq_true, beq_iff_eq, ih, List.cons_prefix_cons]
      constructor
      · rintro ⟨h1, h2⟩; exact ⟨h1.symm, h2⟩
      · rintro ⟨h1, h2⟩; exact ⟨h1.symm, h2⟩

/-- The function `Contains` decides whether `sub` is a contiguous part of `s`. -/
theorem Contains_iff (s sub : GoString) : Contains s sub = true ↔ sub <:+: s := by
  induction s with
  | nil => simp [Contains, HasPrefix_iff]
  | cons c s ih => simp [Contains, HasPrefix_iff, ih, List.infix_cons_iff]

theorem hasUnsafeToken_eq_false_iff (s : GoString) :
    hasUnsafeToken s = false ↔ ∀ tok ∈ denylist, ¬ tok <:+: s := by
  simp only [← Contains_iff]
  simp [hasUnsafeToken, denylist]
  tauto

theorem storeCell_null (colTypes : List GoString) (row : GoMap Value) (i : Nat)
    (col : GoString) : storeCell colTypes row i col .null = some (mapSet row col .null) := by
  simp [storeCell]

theorem storeCell_of_ne_null (colTypes : List GoString) (row : GoMap Value) (i : Nat)
    (col t : GoString) (val : Value) (ht : colTypes[i]? = some t) (hval : val ≠ .null) :
    storeCell colTypes row i col val = some (mapSet row col (normalize t val)) := by
  simp [storeCell, hval, ht]

theorem normalize_numeric (t : GoString) (val : Value) (ht : t ∈ numericTags) :
    normalize t val = val := by
  simp only [numericTags, List.mem_cons, List.mem_singleton, List.not_mem_nil, or_false] at ht
  unfold normalize
  rcases ht with h | h | h | h <;> subst h <;> cases val <;> simp

theorem normalize_text (t : GoString) (val : Value) (ht : t ∉ numericTags) :
    normalize t val = match val with | .bytes b => .str b | _ => val := by
  simp only [numericTags, List.mem_cons, List.mem_singleton, List.not_mem_nil, or_false,
    not_or] at ht
  obtain ⟨h1, h2, h3, h4⟩ := ht
  simp [normalize, h1, h2, h3, h4]

/-! ## The safety gate and the required parameter of `handleQuery` -/

theorem unsafeFlag_eq_true_iff (args : GoMap Value) :
    unsafeFlag args = true ↔ mapGet args (lit "unsafe") = some (.bool true) := by
  unfold unsafeFlag
  cases h : mapGet args (lit "unsafe") with
  | none => simp
  | some v => cases v <;> simp

theorem handleQuery_forwarded (env : Env) (db : DB (List Value)) (args : GoMap Value)
    (q : GoString) (hq : mapGet args (lit "query") = some (.str q))
    (hgate : (!unsafeFlag args && hasUnsafeToken (ToLower env q)) = false) :
    (handleQuery env db args).2 = [q] := by
  unfold handleQuery
  rw [hq]
  simp only [hgate, Bool.false_eq_true, if_false]
  cases db q <;> rfl

/-- C1: for a string-valued query `q`, `handleQuery` submits `q` to the database
exactly when the `unsafe` argument is the boolean true (absent or non-boolean
counts as false) or the lower-cased `q` contains none of the seven denylist
substrings; otherwise it returns the fixed error and makes no database call. -/
theorem handleQuery_safety_gate (env : Env) (db : DB (List Value)) (args : GoMap Value)
    (q : GoString) (hq : mapGet args (lit "query") = some (.str q)) :
    ((handleQuery env db args).2 = [q] ↔
      (mapGet args (lit "unsafe") = some (.bool true) ∨
        ∀ tok ∈ denylist, ¬ tok <:+: ToLower env q)) ∧
    (¬ (mapGet args (lit "unsafe") = some (.bool true) ∨
        ∀ tok ∈ denylist, ¬ tok <:+: ToLower env q) →
      handleQuery env db args =
        (.returned (.error
          (lit "Potentially unsafe query detected. Set 'unsafe' to true to execute.")), [])) := by
  rw [← hasUnsafeToken_eq_false_iff, ← unsafeFlag_eq_true_iff]
  unfold handleQuery
  rw [hq]
  cases hu : unsafeFlag args <;> cases ht : hasUnsafeToken (ToLower env q) <;> simp
  all_goals (cases db q <;> simp [ht])

/-- C1 at the three scenario inputs: the comment query is denied without the flag
and with a non-boolean flag, `SELECT 1 AS x` is forwarded, and the comment query
is forwarded with the flag set. -/
theorem handleQuery_safety_gate_witness :
    handleQuery sampleEnv sampleDB [(lit "query", .str commentQuery)] =
      (.returned (.error
        (lit "Potentially unsafe query detected. Set 'unsafe' to true to execute.")), []) ∧
    handleQuery sampleEnv sampleDB
        [(lit "query", .str commentQuery), (lit "unsafe", .str (lit "true"))] =
      (.returned (.error
        (lit "Potentially unsafe query detected. Set 'unsafe' to true to execute.")), []) ∧
    (handleQuery sampleEnv sampleDB [(lit "query", .str (lit "SELECT 1 AS x"))]).2 =
      [lit "SELECT 1 AS x"] ∧
    (handleQuery sampleEnv sampleDB
        [(lit "query", .str commentQuery), (lit "unsafe", .bool true)]).2 = [commentQuery] :=
  ⟨(handleQuery_safety_gate sampleEnv sampleDB _ commentQuery (by decide)).2
      (by rw [← hasUnsafeToken_eq_false_iff]; decide),
   (handleQuery_safety_gate sampleEnv sampleDB _ commentQuery (by decide)).2
      (by rw [← hasUnsafeToken_eq_false_iff]; decide),
   (handleQuery_safety_gate sampleEnv sampleDB _ (lit "SELECT 1 AS x") (by decide)).1.2
      (Or.inr (by rw [← hasUnsafeToken_eq_false_iff]; decide)),
   (handleQuery_safety_gate sampleEnv sampleDB _ commentQuery (by decide)).1.2
      (Or.inl (by decide))⟩

/-- C2 as stated fails: a request whose query text is the empty string is not
rejected; the empty statement is submitted to the database and the result is
the one built from the database's answer. -/
theorem handleQuery_empty_query_submitted :
    mapGet [(lit "query", Value.str [])] (lit "query") = some (.str []) ∧
    handleQuery sampleEnv sampleDB [(lit "query", .str [])] =
      (.returned (.text (sampleEnv.sprintQuery (queryEnvelope [lit "id"] []))), [[]]) ∧
    handleQuery sampleEnv sampleDB [(lit "query", .str [])] ≠
      (.returned (.error (lit "query parameter required")), []) := by
  refine ⟨by decide, by decide, by decide⟩

/-- C2, amended: a request whose query argument is missing or is not a string
gets the tool error `Query parameter is required` and no database call,
whatever the other arguments are; a query that is the empty string passes this
check and the safety check and is submitted to the database. -/
theorem handleQuery_query_required (env : Env) (db : DB (List Value)) (args : GoMap Value) :
    ((∀ q, mapGet args (lit "query") ≠ some (.str q)) →
      handleQuery env db args =
        (.returned (.error (lit "Query parameter is required")), [])) ∧
    (mapGet args (lit "query") = some (.str []) → (handleQuery env db args).2 = [[]]) := by
  constructor
  · intro h
    unfold handleQuery
    split
    · next q hq => exact absurd hq (h q)
    · rfl
  · intro h
    have hl : ToLower env [] = [] := by simp [ToLower]
    have ht : hasUnsafeToken [] = false := by decide
    exact handleQuery_forwarded env db args [] h (by rw [hl, ht, Bool.and_false])

/-- C2, amended, at concrete requests: no arguments, a numeric query with the
unsafe flag set, and the empty-string query. -/
theorem handleQuery_query_required_witness :
    handleQuery sampleEnv sampleDB [] =
      (.returned (.error (lit "Query parameter is required")), []) ∧
    handleQuery sampleEnv sampleDB [(lit "query", .int64 7), (lit "unsafe", .bool true)] =
      (.returned (.error (lit "Query parameter is required")), []) ∧
    (handleQuery sampleEnv sampleDB [(lit "query", .str [])]).2 = [[]] :=
  ⟨(handleQuery_query_required sampleEnv sampleDB []).1 (by intro q; simp [mapGet]),
   (handleQuery_query_required sampleEnv sampleDB
      [(lit "query", .int64 7), (lit "unsafe", .bool true)]).1 (by intro q; simp [mapGet]),
   (handleQuery_query_required sampleEnv sampleDB _).2 (by decide)⟩

/-! ## The Row Normalizer -/

theorem storeCell_eq_some (colTypes : List GoString) (row row' : GoMap Value) (i : Nat)
    (col : GoString) (val : Value) (h : storeCell colTypes row i col val = some row') :
    ∃ v, row' = mapSet row col v ∧ (val = .null → v = .null) := by
  unfold storeCell at h
  by_cases hv : val = .null
  · simp only [hv, if_true, Option.some.injEq] at h
    exact ⟨.null, h.symm, fun _ => rfl⟩
  · simp only [hv, if_false] at h
    cases ht : colTypes[i]? with
    | none => simp [ht] at h
    | some t =>
      simp only [ht, Option.some.injEq] at h
      exact ⟨normalize t val, h.symm, fun h' => absurd h' hv⟩

theorem fillRow_keeps (colTypes : List GoString) (values : List Value) (c : GoString) :
    ∀ (cols : List GoString) (i : Nat) (row row' : GoMap Value),
      fillRow colTypes values i cols row = some row' → c ∉ cols →
      mapGet row' c = mapGet row c := by
  intro cols
  induction cols with
  | nil =>
    intro i row row' h _
    simp only [fillRow, Option.some.injEq] at h
    rw [h]
  | cons col rest ih =>
    intro i row row' h hc
    simp only [List.mem_cons, not_or] at hc
    unfold fillRow at h
    cases hs : storeCell colTypes row i col (values[i]?.getD .null) with
    | none => simp [hs] at h
    | some row₁ =>
      simp only [hs] at h
      obtain ⟨v, hv, _⟩ := storeCell_eq_some _ _ _ _ _ _ hs
      rw [ih (i + 1) row₁ row' h hc.2, hv, mapGet_mapSet_ne _ _ _ _ (Ne.symm hc.1)]

theorem fillRow_present (colTypes : List GoString) (values : List Value) (c : GoString) :
    ∀ (cols : List GoString) (i : Nat) (row row' : GoMap Value),
      fillRow colTypes values i cols row = some row' → (mapGet row c).isSome = true →
      (mapGet row' c).isSome = true := by
  intro cols
  induction cols with
  | nil =>
    intro i row row' h hc
    simp only [fillRow, Option.some.injEq] at h
    rw [← h]; exact hc
  | cons col rest ih =>
    intro i row row' h hc
    unfold fillRow at h
    cases hs : storeCell colTypes row i col (values[i]?.getD .null) with
    | none => simp [hs] at h
    | some row₁ =>
      simp only [hs] at h
      obtain ⟨v, hv, _⟩ := storeCell_eq_some _ _ _ _ _ _ hs
      refine ih (i + 1) row₁ row' h ?_
      rw [hv]
      by_cases hk : col = c
      · rw [hk, mapGet_mapSet_self]; rfl
      · rw [mapGet_mapSet_ne _ _ _ _ hk]; exact hc

theorem fillRow_cons (colTypes : List GoString) (values : List Value) (i : Nat)
    (col : GoString) (rest : List GoString) (row : GoMap Value) :
    fillRow colTypes values i (col :: rest) row =
      (storeCell colTypes row i col (values[i]?.getD .null)).bind
        (fillRow colTypes values (i + 1) rest) := by
  rw [fillRow]
  cases storeCell colTypes row i col (values[i]?.getD .null) <;> rfl

theorem fillRow_append (colTypes : List GoString) (values : List Value) :
    ∀ (pre post : List GoString) (i : Nat) (row : GoMap Value),
      fillRow colTypes values i (pre ++ post) row =
        (fillRow colTypes values i pre row).bind (fillRow colTypes values (i + pre.length) post) := by
  intro pre
  induction pre with
  | nil => intro post i row; simp [fillRow]
  | cons col rest ih =>
    intro post i row
    have hlen : i + 1 + rest.length = i + (rest.length + 1) := by omega
    simp only [List.cons_append, List.length_cons, fillRow_cons]
    cases hs : storeCell colTypes row i col (values[i]?.getD .null) with
    | none => simp
    | some row₁ => simp only [ih post (i + 1) row₁, hlen, Option.some_bind]

/-- C10 as stated fails: with two columns named `a` and the row `(NULL, 2)` the
nil cell is stored first and the second cell then replaces it, so the finished
row map binds `a` to 2, not to null. -/
theorem null_cell_overwritten :
    ([Value.null, Value.int64 2] : List Value)[0]?.getD .null = .null ∧
    buildRow [lit "a", lit "a"] [lit "INT4", lit "INT4"] [.null, .int64 2] =
      some [(lit "a", .int64 2)] ∧
    (buildRow [lit "a", lit "a"] [lit "INT4", lit "INT4"] [.null, .int64 2]).bind
      (fun built => mapGet built (lit "a")) ≠ some .null ∧
    handleQuery sampleEnv sameNameDB [(lit "query", .str (lit "SELECT NULL AS a, 2 AS a"))] =
      (.returned (.text (lit "map[columns:[a a] count:1 rows:[map[a:2]]]")),
       [lit "SELECT NULL AS a, 2 AS a"]) := by
  refine ⟨by decide, by decide, by decide, by decide⟩

/-- C10, amended: a nil cell is stored as nil under its column name whatever the
declared type is (the type is not even consulted), so right after the store the
row map binds the name to null; in the finished row the name is still a key, and
it is bound to null unless a later column of the same row has the same name. -/
theorem null_cell_bound_to_null (colTypes : List GoString) (row : GoMap Value) (i : Nat)
    (col : GoString) :
    storeCell colTypes row i col .null = some (mapSet row col .null) ∧
    mapGet (mapSet row col .null) col = some .null ∧
    (∀ (values : List Value) (pre post : List GoString) (built : GoMap Value),
      buildRow (pre ++ col :: post) colTypes values = some built →
      values[pre.length]?.getD .null = .null →
      (∃ v, mapGet built col = some v) ∧ (col ∉ post → mapGet built col = some .null)) := by
  refine ⟨storeCell_null _ _ _ _, mapGet_mapSet_self _ _ _, ?_⟩
  intro values pre post built hb hnull
  unfold buildRow at hb
  rw [fillRow_append] at hb
  cases hpre : fillRow colTypes values 0 pre [] with
  | none => simp [hpre] at hb
  | some row₁ =>
    simp only [hpre, Option.some_bind, Nat.zero_add] at hb
    rw [fillRow_cons, hnull, storeCell_null, Option.some_bind] at hb
    constructor
    · have := fillRow_present colTypes values col post _ _ _ hb
        (by rw [mapGet_mapSet_self]; rfl)
      exact Option.isSome_iff_exists.mp this
    · intro hpost
      rw [fillRow_keeps colTypes values col post _ _ _ hb hpost, mapGet_mapSet_self]

/-- C10, amended, on concrete rows: a nil cell under an integer tag, under a text
tag and with no type information at all; the row `(nil, 5)` under the columns
`a`, `b`, whose finished map binds `a` to null; and the row `(nil, 2)` under two
columns `a`, whose finished map still has the key `a`. -/
theorem null_cell_bound_to_null_witness :
    storeCell [lit "INT8"] [] 0 (lit "a") .null = some [(lit "a", .null)] ∧
    storeCell [lit "TEXT"] [] 0 (lit "a") .null = some [(lit "a", .null)] ∧
    storeCell [] [] 0 (lit "a") .null = some [(lit "a", .null)] ∧
    (buildRow [lit "a", lit "b"] [lit "INT8", lit "INT8"] [.null, .int64 5]).bind
      (fun built => mapGet built (lit "a")) = some .null ∧
    (∃ v, (buildRow [lit "a", lit "a"] [lit "INT4", lit "INT4"] [.null, .int64 2]).bind
      (fun built => mapGet built (lit "a")) = some v) := by
  have hb : buildRow [lit "a", lit "b"] [lit "INT8", lit "INT8"] [.null, .int64 5] =
      some [(lit "a", .null), (lit "b", .int64 5)] := by decide
  have hd : buildRow [lit "a", lit "a"] [lit "INT4", lit "INT4"] [.null, .int64 2] =
      some [(lit "a", .int64 2)] := by decide
  refine ⟨(null_cell_bound_to_null [lit "INT8"] [] 0 (lit "a")).1,
    (null_cell_bound_to_null [lit "TEXT"] [] 0 (lit "a")).1,
    (null_cell_bound_to_null [] [] 0 (lit "a")).1, ?_, ?_⟩
  · rw [hb, Option.some_bind]
    exact ((null_cell_bound_to_null [lit "INT8", lit "INT8"] [] 0 (lit "a")).2.2
      [.null, .int64 5] [] [lit "b"] _ hb (by decide)).2 (by decide)
  · rw [hd]
    exact ((null_cell_bound_to_null [lit "INT4", lit "INT4"] [] 0 (lit "a")).2.2
      [.null, .int64 2] [] [lit "a"] _ hd (by decide)).1

/-- C9: under a tag of the integer or floating-point family every non-nil value
is stored as it is: an `int64` under an integer tag and a `float64` under a
floating-point tag stay that number, and a value of any other kind is passed
through unchanged; the store never fails. -/
theorem numeric_family_passthrough (colTypes : List GoString) (row : GoMap Value) (i : Nat)
    (col t : GoString) (val : Value) (ht : colTypes[i]? = some t) (htag : t ∈ numericTags)
    (hval : val ≠ .null) :
    storeCell colTypes row i col val = some (mapSet row col val) ∧
    mapGet (mapSet row col val) col = some val := by
  refine ⟨?_, mapGet_mapSet_self _ _ _⟩
  rw [storeCell_of_ne_null colTypes row i col t val ht hval, normalize_numeric t val htag]

/-- C9 on the scenario values: `42` under `INT8`, `3.14` (as its bit pattern)
under `FLOAT8`, and a text value under `INT4`. -/
theorem numeric_family_passthrough_witness :
    storeCell [lit "INT8"] [] 0 (lit "n") (.int64 42) = some [(lit "n", .int64 42)] ∧
    storeCell [lit "FLOAT8"] [] 0 (lit "x") (.float64 ⟨0x40091EB851EB851F⟩) =
      some [(lit "x", .float64 ⟨0x40091EB851EB851F⟩)] ∧
    storeCell [lit "INT4"] [] 0 (lit "n") (.str (lit "abc")) = some [(lit "n", .str (lit "abc"))] :=
  ⟨(numeric_family_passthrough [lit "INT8"] [] 0 (lit "n") (lit "INT8") (.int64 42)
      (by decide) (by decide) (by decide)).1,
   (numeric_family_passthrough [lit "FLOAT8"] [] 0 (lit "x") (lit "FLOAT8")
      (.float64 ⟨0x40091EB851EB851F⟩) (by decide) (by decide) (by decide)).1,
   (numeric_family_passthrough [lit "INT4"] [] 0 (lit "n") (lit "INT4") (.str (lit "abc"))
      (by decide) (by decide) (by decide)).1⟩

/-- C8: under a tag outside the integer and floating-point families a byte
sequence `b` is stored as the string whose bytes are exactly `b`, and every
other non-nil value is stored unchanged. -/
theorem text_family_bytes_to_string (colTypes : List GoString) (row : GoMap Value) (i : Nat)
    (col t : GoString) (ht : colTypes[i]? = some t) (htag : t ∉ numericTags) :
    (∀ b : List UInt8,
      storeCell colTypes row i col (.bytes b) = some (mapSet row col (.str b)) ∧
      mapGet (mapSet row col (.str b)) col = some (.str b)) ∧
    (∀ val : Value, val ≠ .null → (∀ b, val ≠ .bytes b) →
      storeCell colTypes row i col val = some (mapSet row col val)) := by
  constructor
  · intro b
    refine ⟨?_, mapGet_mapSet_self _ _ _⟩
    rw [storeCell_of_ne_null colTypes row i col t _ ht (by simp), normalize_text t _ htag]
  · intro val hval hb
    rw [storeCell_of_ne_null colTypes row i col t val ht hval, normalize_text t val htag]
    cases val <;> first | rfl | exact absurd rfl (hb _)

/-- C8 on concrete cells: the UTF-8 bytes of a text under `TEXT` become that
text, and a boolean under `BOOL` stays a boolean. -/
theorem text_family_bytes_to_string_witness :
    storeCell [lit "TEXT"] [] 0 (lit "s") (.bytes (lit "héllo")) =
      some [(lit "s", .str (lit "héllo"))] ∧
    storeCell [lit "BOOL"] [] 0 (lit "f") (.bool true) = some [(lit "f", .bool true)] :=
  ⟨((text_family_bytes_to_string [lit "TEXT"] [] 0 (lit "s") (lit "TEXT")
      (by decide) (by decide)).1 (lit "héllo")).1,
   (text_family_bytes_to_string [lit "BOOL"] [] 0 (lit "f") (lit "BOOL")
      (by decide) (by decide)).2 (.bool true) (by decide) (by intro b; exact Value.noConfusion)⟩

/-- C3 as stated fails: a value of another dynamic type (a timestamp, say) is
stored as it is, and so is a byte sequence under an integer tag; neither is a
null, a number, a boolean or a string. -/
theorem storeCell_not_normalized :
    storeCell [lit "TIMESTAMPTZ"] [] 0 (lit "ts") (.other 0) = some [(lit "ts", .other 0)] ∧
    Value.isNormalized (.other 0) = false ∧
    storeCell [lit "INT8"] [] 0 (lit "n") (.bytes [52, 50]) = some [(lit "n", .bytes [52, 50])] ∧
    Value.isNormalized (.bytes [52, 50]) = false := by
  refine ⟨by decide, by decide, by decide, by decide⟩

/-- C3, amended: a cell whose declared type is `t` and whose raw value is nil, an
integer, a float, a boolean or a text, or a byte sequence when `t` is outside
the integer and floating-point families, is stored as a null, a number, a
boolean or a string; a value of another dynamic type under any tag, and a byte
sequence under an integer or floating-point tag, is stored unchanged. -/
theorem storeCell_normalized (colTypes : List GoString) (row : GoMap Value) (i : Nat)
    (col t : GoString) (ht : colTypes[i]? = some t) :
    (∀ val : Value, (∀ id, val ≠ .other id) → (∀ b, val = .bytes b → t ∉ numericTags) →
      ∃ v, storeCell colTypes row i col val = some (mapSet row col v) ∧
        mapGet (mapSet row col v) col = some v ∧ v.isNormalized = true) ∧
    (∀ id, storeCell colTypes row i col (.other id) = some (mapSet row col (.other id))) ∧
    (t ∈ numericTags → ∀ b,
      storeCell colTypes row i col (.bytes b) = some (mapSet row col (.bytes b))) := by
  refine ⟨?_, ?_, ?_⟩
  · intro val hother hbytes
    by_cases hnull : val = .null
    · subst hnull
      exact ⟨.null, storeCell_null _ _ _ _, mapGet_mapSet_self _ _ _, rfl⟩
    · refine ⟨normalize t val, storeCell_of_ne_null colTypes row i col t val ht hnull,
        mapGet_mapSet_self _ _ _, ?_⟩
      by_cases htag : t ∈ numericTags
      · rw [normalize_numeric t val htag]
        cases val with
        | bytes b => exact absurd htag (hbytes b rfl)
        | other id => exact absurd rfl (hother id)
        | _ => rfl
      · rw [normalize_text t val htag]
        cases val with
        | other id => exact absurd rfl (hother id)
        | _ => rfl
  · intro id
    rw [storeCell_of_ne_null colTypes row i col t _ ht (by simp)]
    by_cases htag : t ∈ numericTags
    · rw [normalize_numeric t _ htag]
    · rw [normalize_text t _ htag]
  · intro htag b
    rw [storeCell_of_ne_null colTypes row i col t _ ht (by simp), normalize_numeric t _ htag]

/-- C3, amended, on concrete cells: an integer under `INT4`, bytes under `TEXT`,
a timestamp under `TIMESTAMPTZ`. -/
theorem storeCell_normalized_witness :
    (∃ v, storeCell [lit "INT4"] [] 0 (lit "n") (.int64 1) = some (mapSet [] (lit "n") v) ∧
      mapGet (mapSet [] (lit "n") v) (lit "n") = some v ∧ v.isNormalized = true) ∧
    (∃ v, storeCell [lit "TEXT"] [] 0 (lit "s") (.bytes [104, 105]) =
        some (mapSet [] (lit "s") v) ∧
      mapGet (mapSet [] (lit "s") v) (lit "s") = some v ∧ v.isNormalized = true) ∧
    storeCell [lit "TIMESTAMPTZ"] [] 0 (lit "ts") (.other 0) =
      some (mapSet [] (lit "ts") (.other 0)) :=
  ⟨(storeCell_normalized [lit "INT4"] [] 0 (lit "n") (lit "INT4") (by decide)).1 (.int64 1)
      (by intro id; exact Value.noConfusion) (by intro b h; exact Value.noConfusion h),
   (storeCell_normalized [lit "TEXT"] [] 0 (lit "s") (lit "TEXT") (by decide)).1
      (.bytes [104, 105]) (by intro id; exact Value.noConfusion) (by intro b _; decide),
   (storeCell_normalized [lit "TIMESTAMPTZ"] [] 0 (lit "ts") (lit "TIMESTAMPTZ")
      (by decide)).2.1 0⟩

/-! ## The result envelope of `handleQuery` -/

theorem storeCell_isSome (colTypes : List GoString) (row : GoMap Value) (i : Nat)
    (col : GoString) (val : Value) (hi : i < colTypes.length) :
    ∃ row', storeCell colTypes row i col val = some row' := by
  by_cases hv : val = .null
  · exact ⟨_, by rw [hv, storeCell_null]⟩
  · exact ⟨_, storeCell_of_ne_null colTypes row i col colTypes[i] val
      (List.getElem?_eq_getElem hi) hv⟩

theorem fillRow_isSome (colTypes : List GoString) (values : List Value) :
    ∀ (cols : List GoString) (i : Nat) (row : GoMap Value),
      i + cols.length ≤ colTypes.length → ∃ row', fillRow colTypes values i cols row = some row' := by
  intro cols
  induction cols with
  | nil => intro i row _; exact ⟨row, rfl⟩
  | cons col rest ih =>
    intro i row hlen
    simp only [List.length_cons] at hlen
    obtain ⟨row₁, h₁⟩ := storeCell_isSome colTypes row i col (values[i]?.getD .null) (by omega)
    obtain ⟨row₂, h₂⟩ := ih (i + 1) row₁ (by omega)
    exact ⟨row₂, by rw [fillRow_cons, h₁, Option.some_bind, h₂]⟩

theorem scanRows_ok (columns colTypes : List GoString) (hlen : columns.length ≤ colTypes.length) :
    ∀ (R : List (List Value)) (acc : List (GoMap Value)),
      ∃ maps, List.Forall₂ (fun values m => buildRow columns colTypes values = some m) R maps ∧
        scanRows columns colTypes (R.map .ok) acc = .ok (acc ++ maps) := by
  intro R
  induction R with
  | nil => intro acc; exact ⟨[], List.Forall₂.nil, by simp [scanRows]⟩
  | cons values rest ih =>
    intro acc
    obtain ⟨m, hm⟩ := fillRow_isSome colTypes values columns 0 [] (by omega)
    obtain ⟨maps, hmaps, hscan⟩ := ih (acc ++ [m])
    refine ⟨m :: maps, List.Forall₂.cons hm hmaps, ?_⟩
    have hb : buildRow columns colTypes values = some m := hm
    simp only [List.map_cons, scanRows, hb, hscan, List.append_assoc, List.singleton_append]

theorem storeCell_nodup (colTypes : List GoString) (row row' : GoMap Value) (i : Nat)
    (col : GoString) (val : Value) (h : storeCell colTypes row i col val = some row')
    (hnd : (row.map Prod.fst).Nodup) : (row'.map Prod.fst).Nodup := by
  obtain ⟨v, hv, _⟩ := storeCell_eq_some _ _ _ _ _ _ h
  rw [hv, keys_mapSet]
  by_cases hk : col ∈ row.map Prod.fst
  · rw [if_pos hk]; exact hnd
  · rw [if_neg hk]
    exact List.nodup_append.mpr ⟨hnd, List.nodup_singleton _, by simpa using hk⟩

theorem fillRow_nodup (colTypes : List GoString) (values : List Value) :
    ∀ (cols : List GoString) (i : Nat) (row row' : GoMap Value),
      fillRow colTypes values i cols row = some row' → (row.map Prod.fst).Nodup →
      (row'.map Prod.fst).Nodup := by
  intro cols
  induction cols with
  | nil =>
    intro i row row' h hnd
    simp only [fillRow, Option.some.injEq] at h
    rw [← h]; exact hnd
  | cons col rest ih =>
    intro i row row' h hnd
    rw [fillRow_cons] at h
    cases hs : storeCell colTypes row i col (values[i]?.getD .null) with
    | none => simp [hs] at h
    | some row₁ =>
      rw [hs, Option.some_bind] at h
      exact ih (i + 1) row₁ row' h (storeCell_nodup _ _ _ _ _ _ hs hnd)

/-- What `buildRow` returns is the row map of the scanned values. -/
theorem buildRow_isRowMap (C T : List GoString) (values : List Value) (m : GoMap Value)
    (h : buildRow C T values = some m) : IsRowMap C T values m := by
  refine ⟨fillRow_nodup T values C 0 [] m h List.nodup_nil, ?_, ?_⟩
  · intro c hc
    rw [fillRow_keeps T values c C 0 [] m h hc]
    rfl
  · intro pre post c t hC hpost ht
    subst hC
    unfold buildRow at h
    rw [fillRow_append] at h
    cases hpre : fillRow T values 0 pre [] with
    | none => simp [hpre] at h
    | some row₁ =>
      simp only [hpre, Option.some_bind, Nat.zero_add] at h
      rw [fillRow_cons] at h
      by_cases hnull : values[pre.length]?.getD .null = .null
      · rw [hnull, storeCell_null, Option.some_bind] at h
        rw [fillRow_keeps T values c post _ _ _ h hpost, mapGet_mapSet_self, if_pos hnull]
      · rw [storeCell_of_ne_null T row₁ pre.length c t _ ht hnull, Option.some_bind] at h
        rw [fillRow_keeps T values c post _ _ _ h hpost, mapGet_mapSet_self, if_neg hnull]

/-- C5: when the query is forwarded, executes, and the cursor yields the column
names `C` and the rows `R` without a scan or iteration error, the envelope has
exactly `message` and `columns` if `R` is empty, and otherwise exactly
`columns`, `rows` and `count`, where `count` is the length of `R` and `rows`
lists, in the order of `R`, the row map of each row: its keys are the names of
`C` and each is bound to the normalized cell of the last column of that name. -/
theorem handleQuery_envelope (env : Env) (db : DB (List Value)) (args : GoMap Value)
    (q : GoString) (rows : Rows (List Value)) (C : List GoString) (R : List (List Value))
    (hq : mapGet args (lit "query") = some (.str q))
    (hgate : mapGet args (lit "unsafe") = some (.bool true) ∨
      ∀ tok ∈ denylist, ¬ tok <:+: ToLower env q)
    (hdb : db q = .ok rows) (hcols : rows.columns = .ok C)
    (htypes : C.length ≤ rows.columnTypes.length)
    (hscans : rows.scans = R.map .ok) (herr : rows.err = none) :
    ∃ maps : List (GoMap Value),
      List.Forall₂ (fun values m => buildRow C rows.columnTypes values = some m ∧
        IsRowMap C rows.columnTypes values m) R maps ∧
      handleQuery env db args =
        (.returned (.text (env.sprintQuery
          (if R = [] then
            [(lit "message", .message (lit "Query executed successfully with no rows returned")),
             (lit "columns", .columns C)]
          else
            [(lit "columns", .columns C), (lit "rows", .rows maps),
             (lit "count", .count R.length)]))), [q]) := by
  obtain ⟨maps, hmaps, hscan⟩ := scanRows_ok C rows.columnTypes htypes R []
  refine ⟨maps, List.Forall₂.imp (fun _ _ h => ⟨h, buildRow_isRowMap _ _ _ _ h⟩) hmaps, ?_⟩
  have hlen : maps.length = R.length := hmaps.length_eq.symm
  rw [← hasUnsafeToken_eq_false_iff, ← unsafeFlag_eq_true_iff] at hgate
  have hg : (!unsafeFlag args && hasUnsafeToken (ToLower env q)) = false := by
    rcases hgate with h | h <;> simp [h]
  unfold handleQuery
  simp only [hq, hg, hdb, processRows, hcols, hscans, hscan, herr, queryEnvelope,
    List.nil_append, Bool.false_eq_true, if_false]
  cases R with
  | nil =>
    have : maps = [] := List.length_eq_zero.mp hlen
    simp [this]
  | cons values rest =>
    cases maps with
    | nil => simp at hlen
    | cons m ms => simp [hlen]

set_option maxRecDepth 8192 in
/-- C5 on the scenarios: `SELECT 1 AS x` gives columns `[x]`, rows `[{x: 1}]` and
count 1, and a query without rows gives the message form; both are shown as the
text of the result, which renders the whole envelope. -/
theorem handleQuery_envelope_witness :
    handleQuery sampleEnv sampleDB [(lit "query", .str (lit "SELECT 1 AS x"))] =
      (.returned (.text (lit "map[columns:[x] count:1 rows:[map[x:1]]]")),
       [lit "SELECT 1 AS x"]) ∧
    handleQuery sampleEnv sampleDB [(lit "query", .str (lit "SELECT * FROM t WHERE false"))] =
      (.returned (.text
        (lit "map[columns:[id] message:Query executed successfully with no rows returned]")),
       [lit "SELECT * FROM t WHERE false"]) := by
  constructor
  · obtain ⟨maps, hmaps, h⟩ := handleQuery_envelope sampleEnv sampleDB
      [(lit "query", .str (lit "SELECT 1 AS x"))] (lit "SELECT 1 AS x")
      { columns := .ok [lit "x"], columnTypes := [lit "INT4"], scans := [.ok [.int64 1]],
        err := none }
      [lit "x"] [[.int64 1]] (by decide)
      (Or.inr (by rw [← hasUnsafeToken_eq_false_iff]; decide))
      (by unfold sampleDB; exact if_pos rfl) rfl (by decide) rfl rfl
    have hm : maps = [[(lit "x", .int64 1)]] := by
      cases hmaps with
      | cons h₁ h₂ =>
        cases h₂
        have hrow : buildRow [lit "x"] [lit "INT4"] [Value.int64 1] =
            some [(lit "x", .int64 1)] := by decide
        rw [hrow] at h₁
        rw [Option.some.inj h₁.1]
    rw [hm, if_neg (by decide)] at h
    rw [h]
    decide
  · obtain ⟨maps, hmaps, h⟩ := handleQuery_envelope sampleEnv sampleDB
      [(lit "query", .str (lit "SELECT * FROM t WHERE false"))]
      (lit "SELECT * FROM t WHERE false")
      { columns := .ok [lit "id"], columnTypes := [lit "INT4"], scans := [], err := none }
      [lit "id"] [] (by decide)
      (Or.inr (by rw [← hasUnsafeToken_eq_false_iff]; decide))
      (by unfold sampleDB; exact if_neg (by decide)) rfl (by decide) rfl rfl
    rw [if_pos rfl] at h
    rw [h]
    decide

/-! ## The statement text and the messages of `handleSchemaInfo` -/

theorem schemaQuery_of_ne_nil (tableName : GoString) (h : tableName ≠ []) :
    schemaQuery tableName =
      schemaQueryBase ++ (lit " AND t.table_name = '" ++ tableName ++ lit "'") ++
        lit " ORDER BY t.table_name, c.ordinal_position" := by
  simp [schemaQuery, Sprintf1, h]

theorem schemaQuery_injective (a b : GoString) (ha : a ≠ []) (hb : b ≠ [])
    (h : schemaQuery a = schemaQuery b) : a = b := by
  rw [schemaQuery_of_ne_nil a ha, schemaQuery_of_ne_nil b hb] at h
  have h₁ := List.append_cancel_left (List.append_cancel_right h)
  exact List.append_cancel_left (List.append_cancel_right h₁)

/-- C4 fails on the code: the filter value is spliced into the statement text
between single quotes, so the text submitted for the filter `x' OR '1'='1`
carries the predicate `t.table_name = 'x' OR '1'='1'` and differs from the text
submitted for the filter `x`. -/
theorem schemaQuery_splices_filter :
    (handleSchemaInfo sampleEnv emptyCatalog [(lit "table", .str (lit "x' OR '1'='1"))]).2 =
      [schemaQueryBase ++ lit " AND t.table_name = 'x' OR '1'='1'" ++
        lit " ORDER BY t.table_name, c.ordinal_position"] ∧
    (handleSchemaInfo sampleEnv emptyCatalog [(lit "table", .str (lit "x"))]).2 =
      [schemaQueryBase ++ lit " AND t.table_name = 'x'" ++
        lit " ORDER BY t.table_name, c.ordinal_position"] ∧
    schemaQuery (lit "x' OR '1'='1") ≠ schemaQuery (lit "x") := by
  refine ⟨?_, ?_, ?_⟩
  · have ht : tableArg [(lit "table", Value.str (lit "x' OR '1'='1"))] = lit "x' OR '1'='1" := by
      decide
    have hq := schemaQuery_of_ne_nil (lit "x' OR '1'='1") (by decide)
    have hs : lit " AND t.table_name = '" ++ lit "x' OR '1'='1" ++ lit "'" =
        lit " AND t.table_name = 'x' OR '1'='1'" := by decide
    simp only [handleSchemaInfo, emptyCatalog, ht, hq, hs]
  · have ht : tableArg [(lit "table", Value.str (lit "x"))] = lit "x" := by decide
    have hq := schemaQuery_of_ne_nil (lit "x") (by decide)
    have hs : lit " AND t.table_name = '" ++ lit "x" ++ lit "'" =
        lit " AND t.table_name = 'x'" := by decide
    simp only [handleSchemaInfo, emptyCatalog, ht, hq, hs]
  · intro h
    exact absurd (schemaQuery_injective _ _ (by decide) (by decide) h) (by decide)

theorem scanSchema_ok (R : List SchemaRow) :
    ∀ m, scanSchema (R.map .ok) m = .ok (R.foldl addColumn m) := by
  induction R with
  | nil => intro m; rfl
  | cons r rest ih => intro m; simp only [List.map_cons, scanSchema, ih, List.foldl_cons]

theorem mapSet_ne_nil {α : Type} (m : GoMap α) (k : GoString) (v : α) : mapSet m k v ≠ [] := by
  cases m with
  | nil => simp [mapSet]
  | cons e m =>
    obtain ⟨k', v'⟩ := e
    by_cases h : k' = k <;> simp [mapSet, h]

theorem foldl_addColumn_ne_nil (R : List SchemaRow) :
    ∀ m, (m ≠ [] ∨ R ≠ []) → R.foldl addColumn m ≠ [] := by
  induction R with
  | nil => intro m h; simpa using h
  | cons r rest ih =>
    intro m _
    exact ih (addColumn m r) (Or.inl (mapSet_ne_nil _ _ _))

/-- C7 as stated fails on the message texts: with the filter `ghost` and no
matching row the result is `Table 'ghost' not found.`, and with no filter it is
`No tables found in the database.`; a filter that is the empty string counts as
no filter. -/
theorem handleSchemaInfo_message_text :
    (handleSchemaInfo sampleEnv emptyCatalog [(lit "table", .str (lit "ghost"))]).1 =
      .text (lit "Table 'ghost' not found.") ∧
    CallToolResult.text (lit "Table 'ghost' not found.") ≠ .text (lit "table 'ghost' not found") ∧
    (handleSchemaInfo sampleEnv emptyCatalog []).1 = .text (lit "No tables found in the database.") ∧
    CallToolResult.text (lit "No tables found in the database.") ≠ .text (lit "no tables found") ∧
    (handleSchemaInfo sampleEnv emptyCatalog [(lit "table", .str [])]).1 =
      .text (lit "No tables found in the database.") := by
  refine ⟨by decide, by decide, by decide, by decide, by decide⟩

/-- C7, amended: when the catalog statement executes and yields no row (and no
iteration error), the result is the message `No tables found in the database.`
if no filter was given (the `table` argument is absent, not a string, or
empty) and `Table '<name>' not found.` if the filter `<name>` was given; when it
yields at least one row, all scanned without error, the result is the rendered
envelope whose `tables` sequence is non-empty. -/
theorem handleSchemaInfo_empty_or_tables (env : Env) (db : DB SchemaRow) (args : GoMap Value)
    (rows : Rows SchemaRow) (hrange : ∀ m, (env.rangeOrder m).Perm m)
    (hdb : db (schemaQuery (tableArg args)) = .ok rows) (herr : rows.err = none) :
    (rows.scans = [] →
      (handleSchemaInfo env db args).1 =
        if tableArg args = [] then .text (lit "No tables found in the database.")
        else .text (lit "Table '" ++ tableArg args ++ lit "' not found.")) ∧
    (∀ R : List SchemaRow, R ≠ [] → rows.scans = R.map .ok →
      ∃ tables, tables ≠ [] ∧
        (handleSchemaInfo env db args).1 = .text (env.sprintSchema [(lit "tables", tables)])) := by
  constructor
  · intro hs
    have h0 : env.rangeOrder [] = [] := List.Perm.eq_nil (hrange [])
    simp only [handleSchemaInfo, hdb, processSchema, hs, scanSchema, herr, h0, buildTables,
      List.map_nil, List.length_nil, if_true, Sprintf1]
  · intro R hR hs
    have hne : env.rangeOrder (R.foldl addColumn []) ≠ [] := by
      intro h
      have hp := hrange (R.foldl addColumn [])
      rw [h] at hp
      exact foldl_addColumn_ne_nil R [] (Or.inr hR) (List.Perm.nil_eq hp).symm
    refine ⟨buildTables (env.rangeOrder (R.foldl addColumn [])), ?_, ?_⟩
    · simpa [buildTables] using hne
    · have hlen : (buildTables (env.rangeOrder (R.foldl addColumn []))).length ≠ 0 := by
        simpa [buildTables] using hne
      simp only [handleSchemaInfo, hdb, processSchema, hs, scanSchema_ok, herr, hlen, if_false]

/-- C7, amended, on concrete requests: the filter `ghost` and no filter on an
empty catalog, and no filter on a catalog with rows. -/
theorem handleSchemaInfo_empty_or_tables_witness :
    (handleSchemaInfo sampleEnv emptyCatalog [(lit "table", .str (lit "ghost"))]).1 =
      .text (lit "Table 'ghost' not found.") ∧
    (handleSchemaInfo sampleEnv emptyCatalog []).1 =
      .text (lit "No tables found in the database.") ∧
    (∃ tables, tables ≠ [] ∧
      (handleSchemaInfo sampleEnv sampleCatalog []).1 =
        .text (sampleEnv.sprintSchema [(lit "tables", tables)])) := by
  refine ⟨?_, ?_, ?_⟩
  · have h := (handleSchemaInfo_empty_or_tables sampleEnv emptyCatalog
      [(lit "table", .str (lit "ghost"))]
      { columns := .ok [], columnTypes := [], scans := [], err := none }
      (fun m => List.reverse_perm m) rfl rfl).1 rfl
    rw [h]; decide
  · have h := (handleSchemaInfo_empty_or_tables sampleEnv emptyCatalog []
      { columns := .ok [], columnTypes := [], scans := [], err := none }
      (fun m => List.reverse_perm m) rfl rfl).1 rfl
    rw [h]; decide
  · exact (handleSchemaInfo_empty_or_tables sampleEnv sampleCatalog []
      { columns := .ok [], columnTypes := [], scans := sampleSchemaRows.map .ok, err := none }
      (fun m => List.reverse_perm m) rfl rfl).2 sampleSchemaRows (by decide) rfl

/-! ## The grouping of catalog rows into tables -/

theorem columnsOf_append_same (R : List SchemaRow) (r : SchemaRow) :
    columnsOf (R ++ [r]) (rowTable r) = columnsOf R (rowTable r) ++ [columnInfo r] := by
  simp [columnsOf, List.filter_append, List.filter_cons]

theorem columnsOf_append_other (R : List SchemaRow) (r : SchemaRow) (t : GoString)
    (h : rowTable r ≠ t) : columnsOf (R ++ [r]) t = columnsOf R t := by
  simp [columnsOf, List.filter_append, List.filter_cons, h]

theorem columnsOf_eq_nil (R : List SchemaRow) (t : GoString) (h : t ∉ R.map rowTable) :
    columnsOf R t = [] := by
  simp only [columnsOf, List.map_eq_nil_iff, List.filter_eq_nil_iff, decide_eq_true_eq]
  intro r hr hrt
  exact h (hrt ▸ List.mem_map_of_mem rowTable hr)

/-- After the rows `R` the table map has one key per table name of `R`, bound to
the column-info maps of the rows with that name, in row order. -/
theorem foldl_addColumn_spec (R : List SchemaRow) :
    ((R.foldl addColumn []).map Prod.fst).Nodup ∧
    ∀ t, mapGet (R.foldl addColumn []) t =
      if t ∈ R.map rowTable then some (columnsOf R t) else none := by
  induction R using List.reverseRecOn with
  | nil => simp [mapGet]
  | append_singleton R r ih =>
    obtain ⟨hnd, hget⟩ := ih
    have hkey : rowTable r ∈ (R.foldl addColumn []).map Prod.fst ↔ rowTable r ∈ R.map rowTable := by
      rw [← not_iff_not, ← mapGet_eq_none_iff, hget]
      by_cases h : rowTable r ∈ R.map rowTable <;> simp [h]
    have hold : (mapGet (R.foldl addColumn []) (rowTable r)).getD [] = columnsOf R (rowTable r) := by
      rw [hget]
      by_cases h : rowTable r ∈ R.map rowTable
      · simp [h]
      · simp [h, columnsOf_eq_nil R _ h]
    have hstep : (R ++ [r]).foldl addColumn [] =
        mapSet (R.foldl addColumn []) (rowTable r) (columnsOf R (rowTable r) ++ [columnInfo r]) := by
      rw [List.foldl_append, List.foldl_cons, List.foldl_nil, ← hold]
      rfl
    rw [hstep]
    constructor
    · rw [keys_mapSet]
      by_cases h : rowTable r ∈ (R.foldl addColumn []).map Prod.fst
      · simpa [h] using hnd
      · rw [if_neg h]
        exact List.nodup_append.mpr ⟨hnd, List.nodup_singleton _, by simpa using h⟩
    · intro t
      rw [mapGet_mapSet]
      by_cases h : rowTable r = t
      · subst h
        simp [columnsOf_append_same]
      · rw [if_neg h, hget, columnsOf_append_other R r t h]
        have hmem : t ∈ (R ++ [r]).map rowTable ↔ t ∈ R.map rowTable := by
          simp [Ne.symm h]
        by_cases ht : t ∈ R.map rowTable
        · rw [if_pos ht, if_pos (hmem.mpr ht)]
        · rw [if_neg ht, if_neg (fun h' => ht (hmem.mp h'))]

theorem foldl_addColumn_eq_map (R : List SchemaRow) :
    R.foldl addColumn [] =
      ((R.foldl addColumn []).map Prod.fst).map (fun t => (t, columnsOf R t)) := by
  obtain ⟨hnd, hget⟩ := foldl_addColumn_spec R
  rw [List.map_map]
  conv_lhs => rw [← List.map_id (R.foldl addColumn [])]
  apply List.map_congr_left
  intro e he
  have h₁ := mapGet_of_mem _ hnd e he
  rw [hget] at h₁
  by_cases ht : e.1 ∈ R.map rowTable
  · rw [if_pos ht] at h₁
    simp only [id, Function.comp]
    rw [Option.some.inj h₁]
  · rw [if_neg ht] at h₁
    exact absurd h₁ (by simp)

theorem keys_perm_dedup (R : List SchemaRow) :
    ((R.foldl addColumn []).map Prod.fst).Perm (R.map rowTable).dedup := by
  obtain ⟨hnd, hget⟩ := foldl_addColumn_spec R
  rw [List.perm_ext_iff_of_nodup hnd (List.nodup_dedup _)]
  intro t
  rw [List.mem_dedup, ← not_iff_not, ← mapGet_eq_none_iff, hget]
  by_cases h : t ∈ R.map rowTable <;> simp [h]

theorem columnCount_tableOf (R : List SchemaRow) (t : GoString) :
    columnCount (tableOf R t) = @List.count GoString instBEqOfDecidableEq t (R.map rowTable) := by
  have hk : mapGet (tableOf R t) (lit "columns") = some (.columns (columnsOf R t)) := by
    have hne : lit "table_name" ≠ lit "columns" := by decide
    simp [tableOf, mapGet, hne]
  simp only [columnCount, hk, columnsOf, List.length_map, List.count_eq_countP,
    List.countP_eq_length_filter]
  rw [List.filter_map, List.length_map]
  congr 1

theorem columnInfo_fields (r : SchemaRow) :
    mapGet (columnInfo r) (lit "column_name") = some (.str r.columnName.String) ∧
    mapGet (columnInfo r) (lit "data_type") = some (.str r.dataType.String) ∧
    mapGet (columnInfo r) (lit "is_nullable") =
      some (.bool (decide (r.isNullable.String = lit "YES"))) ∧
    mapGet (columnInfo r) (lit "default_value") =
      (if r.columnDefault.Valid then some (.str r.columnDefault.String) else none) ∧
    mapGet (columnInfo r) (lit "constraint") =
      (if r.constraintType.Valid then some (.str r.constraintType.String) else none) := by
  unfold columnInfo
  cases r.columnDefault.Valid <;> cases r.constraintType.Valid <;>
    exact ⟨rfl, rfl, rfl, rfl, rfl⟩

/-- C6: for every sequence `R` of scanned catalog rows the `tables` sequence is,
up to order, one table map per distinct table name of `R`, whose `columns` are
the column-info maps of the rows with that name in row order; the column-info
map of a row has `is_nullable` true exactly when the text is `YES`, and
`default_value` and `constraint` exactly when the catalog value is non-null; the
column-info maps of all tables together number as many as the rows. -/
theorem schema_tables_grouped (env : Env) (hrange : ∀ m, (env.rangeOrder m).Perm m)
    (R : List SchemaRow) :
    ∃ tableMap, scanSchema (R.map .ok) [] = .ok tableMap ∧
      (buildTables (env.rangeOrder tableMap)).Perm ((R.map rowTable).dedup.map (tableOf R)) ∧
      ((buildTables (env.rangeOrder tableMap)).map columnCount).sum = R.length ∧
      (∀ (name : GoString) (rows : Rows SchemaRow), R ≠ [] → rows.scans = R.map .ok →
        rows.err = none →
        processSchema env name rows =
          .text (env.sprintSchema [(lit "tables", buildTables (env.rangeOrder tableMap))])) ∧
      (∀ r : SchemaRow,
        mapGet (columnInfo r) (lit "column_name") = some (.str r.columnName.String) ∧
        mapGet (columnInfo r) (lit "data_type") = some (.str r.dataType.String) ∧
        mapGet (columnInfo r) (lit "is_nullable") =
          some (.bool (decide (r.isNullable.String = lit "YES"))) ∧
        mapGet (columnInfo r) (lit "default_value") =
          (if r.columnDefault.Valid then some (.str r.columnDefault.String) else none) ∧
        mapGet (columnInfo r) (lit "constraint") =
          (if r.constraintType.Valid then some (.str r.constraintType.String) else none)) := by
  have hperm : (buildTables (env.rangeOrder (R.foldl addColumn []))).Perm
      ((R.map rowTable).dedup.map (tableOf R)) := by
    have h₁ : (buildTables (env.rangeOrder (R.foldl addColumn []))).Perm
        (buildTables (R.foldl addColumn [])) := (hrange _).map _
    have h₂ : buildTables (R.foldl addColumn []) =
        ((R.foldl addColumn []).map Prod.fst).map (tableOf R) := by
      conv_lhs => rw [foldl_addColumn_eq_map R]
      simp [buildTables, tableOf, List.map_map, Function.comp]
    rw [h₂] at h₁
    exact h₁.trans ((keys_perm_dedup R).map _)
  refine ⟨R.foldl addColumn [], scanSchema_ok R [], hperm, ?_, ?_, columnInfo_fields⟩
  · rw [(hperm.map columnCount).sum_eq, List.map_map]
    have hc : columnCount ∘ tableOf R =
        fun t => @List.count GoString instBEqOfDecidableEq t (R.map rowTable) := by
      funext t
      exact columnCount_tableOf R t
    rw [hc, List.sum_map_count_dedup_eq_length, List.length_map]
  · intro name rows hR hs herr
    have hlen : (buildTables (env.rangeOrder (R.foldl addColumn []))).length ≠ 0 := by
      rw [hperm.length_eq]
      simp only [List.length_map, ne_eq, List.length_eq_zero, List.dedup_eq_nil,
        List.map_eq_nil_iff]
      exact hR
    simp only [processSchema, hs, scanSchema_ok, herr, hlen, if_false]

/-- C6 on three rows, two of table `users` around one of table `orders`. -/
theorem schema_tables_grouped_witness :
    (∃ tableMap, scanSchema (sampleSchemaRows.map .ok) [] = .ok tableMap ∧
      (buildTables (sampleEnv.rangeOrder tableMap)).Perm
        ((sampleSchemaRows.map rowTable).dedup.map (tableOf sampleSchemaRows)) ∧
      ((buildTables (sampleEnv.rangeOrder tableMap)).map columnCount).sum = 3) ∧
    buildTables (sampleEnv.rangeOrder (sampleSchemaRows.foldl addColumn [])) =
      [[(lit "table_name", .name (lit "orders")),
        (lit "columns", .columns
          [[(lit "column_name", .str (lit "id")), (lit "data_type", .str (lit "integer")),
            (lit "is_nullable", .bool false), (lit "constraint", .str (lit "PRIMARY KEY"))]])],
       [(lit "table_name", .name (lit "users")),
        (lit "columns", .columns
          [[(lit "column_name", .str (lit "id")), (lit "data_type", .str (lit "integer")),
            (lit "is_nullable", .bool false),
            (lit "default_value", .str (lit "nextval('users_id_seq'::regclass)")),
            (lit "constraint", .str (lit "PRIMARY KEY"))],
           [(lit "column_name", .str (lit "name")), (lit "data_type", .str (lit "text")),
            (lit "is_nullable", .bool true)]])]] := by
  constructor
  · obtain ⟨tableMap, h₁, h₂, h₃, _⟩ :=
      schema_tables_grouped sampleEnv (fun m => List.reverse_perm m) sampleSchemaRows
    exact ⟨tableMap, h₁, h₂, h₃⟩
  · decide

end PgMcp
